import Mathlib

/-
Verification of the typing-speed aggregation store
(src/fastapi_backend/src/api/storage.py).

The Python store is shallowly embedded: the registry dict becomes an
association list from session id to session data, datetimes become
integer milliseconds paired with an optional utc offset, float WPM
becomes an exact rational, exceptions become an error sum type, and the
ambient clock and the generated uuid become explicit parameters.
Mutation of a session object inside the dict is modelled by returning
the updated registry, including the registry left behind when the code
raises mid-loop.
-/

namespace TypingStore

/-- Python datetime value: wall-clock milliseconds together with an
optional timezone, given as the utc offset in minutes; none models a
naive datetime. -/
structure PyDatetime where
  wall : Int
  tz : Option Int
deriving DecidableEq

/-- Model of t.replace with tzinfo set to utc, as on storage.py line 113:
the wall-clock value is kept and declared to be utc, so an aware non-utc
datetime is reinterpreted, not converted. -/
def PyDatetime.replaceUtc (t : PyDatetime) : Int := t.wall

/-- Model of the true utc instant of the datetime (what converting to utc
would give, a naive value being read as utc). The code never computes
this; it is the comparator for the normalize-to-utc wording of the spec. -/
def PyDatetime.utcInstant (t : PyDatetime) : Int :=
  match t.tz with
  | none => t.wall
  | some o => t.wall - o * 60000

/-- schemas.TypingSample. The pydantic bounds are not baked in: the store
re-checks them defensively, so the embedding admits arbitrary integers. -/
structure TypingSample where
  session_id : String
  timestamp : PyDatetime
  chars_typed : Int
  duration_ms : Int
deriving DecidableEq

/-- schemas.SessionSummary; avg_wpm is a python float, modelled as an
exact rational. last_updated is a utc instant in milliseconds. -/
structure SessionSummary where
  session_id : String
  total_chars : Int
  total_duration_ms : Int
  avg_wpm : ℚ
  samples_count : Int
  last_updated : Int
deriving DecidableEq

/-- schemas.SpeedStat; wpm is a python float, modelled as an exact
rational; accuracy is always absent. -/
structure SpeedStat where
  session_id : String
  wpm : ℚ
  accuracy : Option ℚ
  last_updated : Int
deriving DecidableEq

/-- storage._SessionData: the per-session aggregates. last_updated is the
utc instant in milliseconds of the stored aware-utc datetime. -/
structure SessionData where
  session_id : String
  total_chars : Int
  total_duration_ms : Int
  samples_count : Int
  last_updated : Int
deriving DecidableEq

/-- storage._SessionData constructor: zero totals, last_updated set to
the creation wall-clock time, passed in explicitly as now. -/
def SessionData.mk0 (session_id : String) (now : Int) : SessionData :=
  { session_id := session_id
    total_chars := 0
    total_duration_ms := 0
    samples_count := 0
    last_updated := now }

/-- storage._compute_wpm: words per minute from the totals, zero when the
duration is not positive. -/
def compute_wpm (total_chars total_duration_ms : Int) : ℚ :=
  if total_duration_ms ≤ 0 then 0
  else ((total_chars : ℚ) / 5) / ((total_duration_ms : ℚ) / 60000)

/-- storage._SessionData.to_summary. -/
def SessionData.to_summary (sess : SessionData) : SessionSummary :=
  { session_id := sess.session_id
    total_chars := sess.total_chars
    total_duration_ms := sess.total_duration_ms
    avg_wpm := compute_wpm sess.total_chars sess.total_duration_ms
    samples_count := sess.samples_count
    last_updated := sess.last_updated }

/-- The exceptions the store raises. -/
inductive StoreError where
  | keyError (msg : String)
  | valueError (msg : String)
deriving DecidableEq

/-- The registry dict of InMemoryTypingStore, as an association list
from session id to session data; a python dict keeps unique keys and
insertion order, which Store.set and Store.erase preserve. -/
abbrev Store := List (String × SessionData)

/-- Dict lookup: first entry with the given key. -/
def Store.get? : Store → String → Option SessionData
  | [], _ => none
  | (k, v) :: rest, sid => if k = sid then some v else Store.get? rest sid

/-- Dict assignment: replace the value at an existing key in place, or
append a new entry at the end. -/
def Store.set : Store → String → SessionData → Store
  | [], sid, sess => [(sid, sess)]
  | (k, v) :: rest, sid, sess =>
      if k = sid then (k, sess) :: rest else (k, v) :: Store.set rest sid sess

/-- Dict deletion of the entry with the given key. -/
def Store.erase : Store → String → Store
  | [], _ => []
  | (k, v) :: rest, sid => if k = sid then rest else (k, v) :: Store.erase rest sid

/-- The keys of the registry. -/
def Store.keys (st : Store) : List String := st.map Prod.fst

/-- Well-formedness of a registry state: keys are distinct (a dict
invariant) and no key is the empty string (ids come either from a
generated uuid4 string or from a caller-supplied id, and
create_or_get_session replaces a falsy empty id by a uuid before
inserting, so an empty key is never created). Preservation under every
operation is proved below. -/
def Store.wf (st : Store) : Prop :=
  st.keys.Nodup ∧ ∀ p ∈ st, p.1 ≠ ""

/-- The per-sample body of the loop in add_samples (storage.py lines
103-113): validate the sample, then accumulate it. -/
def applySample (sess : SessionData) (s : TypingSample) : SessionData :=
  { sess with
    total_chars := sess.total_chars + s.chars_typed
    total_duration_ms := sess.total_duration_ms + s.duration_ms
    samples_count := sess.samples_count + 1
    last_updated := max sess.last_updated s.timestamp.replaceUtc }

/-- The loop of add_samples over the batch. Validation is interleaved
with mutation exactly as in the source: when a sample fails validation
the samples before it have already been applied, and the session reached
so far is returned together with the error. -/
def addLoop (session_id : String) : SessionData → List TypingSample → SessionData × Option StoreError
  | sess, [] => (sess, none)
  | sess, s :: rest =>
    if s.session_id ≠ session_id then
      (sess, some (.valueError "sample.session_id does not match request session_id"))
    else if s.chars_typed < 0 ∨ s.duration_ms < 0 then
      (sess, some (.valueError "chars_typed and duration_ms must be non-negative"))
    else
      addLoop session_id (applySample sess s) rest

/-- InMemoryTypingStore.add_samples. The wall-clock time of the call is
the explicit parameter now. The first component is the registry after
the call, also on the exception paths: a mid-loop ValueError leaves the
partially updated session object in the dict. -/
def add_samples (st : Store) (session_id : String) (samples : List TypingSample) (now : Int) :
    Store × Except StoreError SessionSummary :=
  if samples.isEmpty then
    (st, .error (.valueError "samples must be non-empty"))
  else
    match Store.get? st session_id with
    | none => (st, .error (.keyError "session not found"))
    | some sess =>
      let r := addLoop session_id sess samples
      match r.2 with
      | some e => (Store.set st session_id r.1, .error e)
      | none =>
        let sess2 : SessionData := { r.1 with last_updated := max r.1.last_updated now }
        (Store.set st session_id sess2, .ok sess2.to_summary)

/-- The python expression session_id or str(uuid4()): an omitted id and
a falsy (empty) id both fall back to the freshly generated uuid string,
passed in explicitly as fresh. -/
def orElseFresh (session_id : Option String) (fresh : String) : String :=
  match session_id with
  | some s => if s = "" then fresh else s
  | none => fresh

/-- InMemoryTypingStore.create_or_get_session; now is the creation
wall-clock time, fresh the generated uuid string. -/
def create_or_get_session (st : Store) (session_id : Option String) (fresh : String) (now : Int) :
    Store × String :=
  let sid := orElseFresh session_id fresh
  if (Store.get? st sid).isSome then (st, sid)
  else (Store.set st sid (SessionData.mk0 sid now), sid)

/-- InMemoryTypingStore.get_session_summary; a pure read. -/
def get_session_summary (st : Store) (session_id : String) : Except StoreError SessionSummary :=
  match Store.get? st session_id with
  | none => .error (.keyError "session not found")
  | some sess => .ok sess.to_summary

/-- InMemoryTypingStore.get_session_stats; a pure read. -/
def get_session_stats (st : Store) (session_id : String) : Except StoreError SpeedStat :=
  match Store.get? st session_id with
  | none => .error (.keyError "session not found")
  | some sess =>
    .ok { session_id := session_id
          wpm := compute_wpm sess.total_chars sess.total_duration_ms
          accuracy := none
          last_updated := sess.last_updated }

/-- InMemoryTypingStore.list_sessions; a pure read. -/
def list_sessions (st : Store) : List SessionSummary :=
  st.map (fun p => p.2.to_summary)

/-- InMemoryTypingStore.clear_session. -/
def clear_session (st : Store) (session_id : String) : Store × Except StoreError Unit :=
  if (Store.get? st session_id).isSome then (Store.erase st session_id, .ok ())
  else (st, .error (.keyError "session not found"))

/-- One invocation of any public store operation, with its ambient
inputs (clock, generated uuid) made explicit. -/
inductive StoreOp where
  | createOrGet (session_id : Option String) (fresh : String) (now : Int)
  | addSamples (session_id : String) (samples : List TypingSample) (now : Int)
  | getSummary (session_id : String)
  | getStats (session_id : String)
  | listAll
  | clear (session_id : String)

/-- The registry state after one operation. The three reads return the
registry unchanged, as the source methods only read under the lock. -/
def applyOp (st : Store) : StoreOp → Store
  | .createOrGet sid fresh now => (create_or_get_session st sid fresh now).1
  | .addSamples sid samples now => (add_samples st sid samples now).1
  | .getSummary _ => st
  | .getStats _ => st
  | .listAll => st
  | .clear sid => (clear_session st sid).1

/-- The side condition under which an operation keeps the registry well
formed: a generated uuid string is never empty. -/
def StoreOp.freshOk : StoreOp → Prop
  | .createOrGet _ fresh _ => fresh ≠ ""
  | _ => True

deriving instance DecidableEq for Except

lemma keys_cons (p : String × SessionData) (rest : Store) :
    Store.keys (p :: rest) = p.1 :: Store.keys rest := rfl

lemma get?_set (st : Store) (k sid : String) (v : SessionData) :
    Store.get? (Store.set st k v) sid = if sid = k then some v else Store.get? st sid := by
  induction st with
  | nil =>
    by_cases h : sid = k
    · simp [Store.set, Store.get?, h]
    · simp [Store.set, Store.get?, h, Ne.symm h]
  | cons p rest ih =>
    obtain ⟨k1, v1⟩ := p
    by_cases h1 : k1 = k
    · subst h1
      by_cases h2 : k1 = sid
      · subst h2
        simp [Store.set, Store.get?]
      · simp [Store.set, Store.get?, h2, Ne.symm h2]
    · by_cases h2 : k1 = sid
      · subst h2
        simp [Store.set, Store.get?, h1]
      · simp [Store.set, Store.get?, h1, h2, ih]

lemma get?_eq_none_iff (st : Store) (sid : String) :
    Store.get? st sid = none ↔ sid ∉ st.keys := by
  induction st with
  | nil => simp [Store.get?, Store.keys]
  | cons p rest ih =>
    obtain ⟨k1, v1⟩ := p
    by_cases h : k1 = sid
    · subst h
      simp [Store.get?, keys_cons]
    · simp [Store.get?, keys_cons, h, Ne.symm h, ih]

lemma get?_mem (st : Store) (sid : String) (v : SessionData)
    (h : Store.get? st sid = some v) : (sid, v) ∈ st := by
  induction st with
  | nil => simp [Store.get?] at h
  | cons p rest ih =>
    obtain ⟨k1, v1⟩ := p
    by_cases h1 : k1 = sid
    · subst h1
      simp [Store.get?] at h
      subst h
      exact List.mem_cons_self _ _
    · simp only [Store.get?, if_neg h1] at h
      exact List.mem_cons_of_mem _ (ih h)

lemma erase_sublist (st : Store) (k : String) : (Store.erase st k).Sublist st := by
  induction st with
  | nil => simp [Store.erase]
  | cons p rest ih =>
    obtain ⟨k1, v1⟩ := p
    by_cases h : k1 = k
    · simp only [Store.erase, if_pos h]
      exact List.sublist_cons_self _ _
    · simp only [Store.erase, if_neg h]
      exact List.Sublist.cons₂ _ ih

lemma get?_erase_ne (st : Store) (k sid : String) (h : sid ≠ k) :
    Store.get? (Store.erase st k) sid = Store.get? st sid := by
  induction st with
  | nil => simp [Store.erase]
  | cons p rest ih =>
    obtain ⟨k1, v1⟩ := p
    by_cases h1 : k1 = k
    · subst h1
      simp [Store.erase, Store.get?, Ne.symm h]
    · by_cases h2 : k1 = sid
      · subst h2
        simp [Store.erase, Store.get?, h1]
      · simp [Store.erase, Store.get?, h1, h2, ih]

lemma mem_set (st : Store) (k : String) (v : SessionData) (p : String × SessionData)
    (h : p ∈ Store.set st k v) : p = (k, v) ∨ p ∈ st := by
  induction st with
  | nil =>
    simp [Store.set] at h
    exact Or.inl h
  | cons q rest ih =>
    obtain ⟨k1, v1⟩ := q
    by_cases h1 : k1 = k
    · subst h1
      replace h : p ∈ (k1, v) :: rest := by simpa [Store.set] using h
      rcases List.mem_cons.mp h with h | h
      · exact Or.inl h
      · exact Or.inr (List.mem_cons_of_mem _ h)
    · simp only [Store.set, if_neg h1, List.mem_cons] at h
      rcases h with h | h
      · exact Or.inr (h ▸ List.mem_cons_self _ _)
      · rcases ih h with h2 | h2
        · exact Or.inl h2
        · exact Or.inr (List.mem_cons_of_mem _ h2)

lemma keys_set_of_mem (st : Store) (k : String) (v : SessionData) (h : k ∈ st.keys) :
    (Store.set st k v).keys = st.keys := by
  induction st with
  | nil => simp [Store.keys] at h
  | cons q rest ih =>
    obtain ⟨k1, v1⟩ := q
    by_cases h1 : k1 = k
    · simp [Store.set, h1, keys_cons]
    · simp only [keys_cons, List.mem_cons] at h
      rcases h with h | h

      · exact absurd h.symm h1
      · simp [Store.set, h1, keys_cons, ih h]

lemma keys_set_of_not_mem (st : Store) (k : String) (v : SessionData) (h : k ∉ st.keys) :
    (Store.set st k v).keys = st.keys ++ [k] := by
  induction st with
  | nil => simp [Store.set, Store.keys]
  | cons q rest ih =>
    obtain ⟨k1, v1⟩ := q
    simp only [keys_cons, List.mem_cons] at h
    push_neg at h
    have h1 : k1 ≠ k := fun hh => h.1 hh.symm
    simp [Store.set, h1, keys_cons, ih h.2]

lemma get?_erase_self (st : Store) (k : String) (hnd : st.keys.Nodup) :
    Store.get? (Store.erase st k) k = none := by
  induction st with
  | nil => simp [Store.erase, Store.get?]
  | cons p rest ih =>
    obtain ⟨k1, v1⟩ := p
    simp only [Store.keys, List.map_cons, List.nodup_cons] at hnd
    by_cases h : k1 = k
    · subst h
      rw [Store.erase, if_pos rfl]
      exact (get?_eq_none_iff rest k1).mpr hnd.1
    · rw [Store.erase, if_neg h, Store.get?, if_neg h]
      exact ih hnd.2

lemma applySample_mono (sess : SessionData) (s : TypingSample)
    (hc : 0 ≤ s.chars_typed) (hd : 0 ≤ s.duration_ms) :
    sess.total_chars ≤ (applySample sess s).total_chars ∧
    sess.total_duration_ms ≤ (applySample sess s).total_duration_ms ∧
    sess.samples_count ≤ (applySample sess s).samples_count ∧
    sess.last_updated ≤ (applySample sess s).last_updated := by
  simp only [applySample]
  exact ⟨le_add_of_nonneg_right hc, le_add_of_nonneg_right hd, by omega, le_max_left _ _⟩

lemma addLoop_mono (sid : String) (samples : List TypingSample) (sess : SessionData) :
    sess.total_chars ≤ (addLoop sid sess samples).1.total_chars ∧
    sess.total_duration_ms ≤ (addLoop sid sess samples).1.total_duration_ms ∧
    sess.samples_count ≤ (addLoop sid sess samples).1.samples_count ∧
    sess.last_updated ≤ (addLoop sid sess samples).1.last_updated := by
  induction samples generalizing sess with
  | nil => exact ⟨le_refl _, le_refl _, le_refl _, le_refl _⟩
  | cons s rest ih =>
    by_cases h1 : s.session_id ≠ sid
    · simp only [addLoop, if_pos h1]
      exact ⟨le_refl _, le_refl _, le_refl _, le_refl _⟩
    · by_cases h2 : s.chars_typed < 0 ∨ s.duration_ms < 0
      · simp only [addLoop, if_neg h1, if_pos h2]
        exact ⟨le_refl _, le_refl _, le_refl _, le_refl _⟩
      · simp only [addLoop, if_neg h1, if_neg h2]
        push_neg at h2
        have hmo := applySample_mono sess s h2.1 h2.2
        have hi := ih (applySample sess s)
        exact ⟨hmo.1.trans hi.1, hmo.2.1.trans hi.2.1, hmo.2.2.1.trans hi.2.2.1,
          hmo.2.2.2.trans hi.2.2.2⟩

lemma addLoop_valid (sid : String) (samples : List TypingSample) (sess : SessionData)
    (h : ∀ s ∈ samples, s.session_id = sid ∧ 0 ≤ s.chars_typed ∧ 0 ≤ s.duration_ms) :
    (addLoop sid sess samples).2 = none ∧
    (addLoop sid sess samples).1.session_id = sess.session_id ∧
    (addLoop sid sess samples).1.total_chars =
      sess.total_chars + (samples.map TypingSample.chars_typed).sum ∧
    (addLoop sid sess samples).1.total_duration_ms =
      sess.total_duration_ms + (samples.map TypingSample.duration_ms).sum ∧
    (addLoop sid sess samples).1.samples_count = sess.samples_count + samples.length := by
  induction samples generalizing sess with
  | nil => simp [addLoop]
  | cons s rest ih =>
    have hs := h s (List.mem_cons_self _ _)
    have hrest : ∀ t ∈ rest, t.session_id = sid ∧ 0 ≤ t.chars_typed ∧ 0 ≤ t.duration_ms :=
      fun t ht => h t (List.mem_cons_of_mem _ ht)
    have h1 : ¬ s.session_id ≠ sid := not_not_intro hs.1
    have h2 : ¬ (s.chars_typed < 0 ∨ s.duration_ms < 0) := by
      push_neg
      exact ⟨hs.2.1, hs.2.2⟩
    simp only [addLoop, if_neg h1, if_neg h2]
    obtain ⟨t0, t1, t2, t3, t4⟩ := ih (applySample sess s) hrest
    have e0 : (applySample sess s).session_id = sess.session_id := rfl
    have e1 : (applySample sess s).total_chars = sess.total_chars + s.chars_typed := rfl
    have e2 : (applySample sess s).total_duration_ms = sess.total_duration_ms + s.duration_ms := rfl
    have e3 : (applySample sess s).samples_count = sess.samples_count + 1 := rfl
    refine ⟨t0, t1.trans e0, ?_, ?_, ?_⟩ <;>
      simp only [List.map_cons, List.sum_cons, List.length_cons] <;> omega

/-- Characterization of the registry returned by add_samples: it is
either untouched, or the target session is overwritten by a fieldwise
at-least-as-large session. -/
lemma add_samples_fst (st : Store) (sid : String) (samples : List TypingSample) (now : Int) :
    (add_samples st sid samples now).1 = st ∨
    ∃ sess t, Store.get? st sid = some sess ∧
      (add_samples st sid samples now).1 = Store.set st sid t ∧
      sess.total_chars ≤ t.total_chars ∧ sess.total_duration_ms ≤ t.total_duration_ms ∧
      sess.samples_count ≤ t.samples_count ∧ sess.last_updated ≤ t.last_updated := by
  by_cases hemp : samples.isEmpty
  · exact Or.inl (by simp [add_samples, hemp])
  · cases hget : Store.get? st sid with
    | none => exact Or.inl (by simp [add_samples, hemp, hget])
    | some sess =>
      have hm := addLoop_mono sid samples sess
      cases hloop : (addLoop sid sess samples).2 with
      | some e =>
        refine Or.inr ⟨sess, (addLoop sid sess samples).1, rfl, ?_, hm.1, hm.2.1, hm.2.2.1,
          hm.2.2.2⟩
        simp [add_samples, hemp, hget, hloop]
      | none =>
        refine Or.inr ⟨sess,
          { (addLoop sid sess samples).1 with
            last_updated := max (addLoop sid sess samples).1.last_updated now },
          rfl, ?_, hm.1, hm.2.1, hm.2.2.1, hm.2.2.2.trans (le_max_left _ _)⟩
        simp [add_samples, hemp, hget, hloop]

lemma wf_set (st : Store) (k : String) (v : SessionData) (hwf : Store.wf st) (hk : k ≠ "") :
    Store.wf (Store.set st k v) := by
  constructor
  · by_cases hmem : k ∈ st.keys
    · rw [keys_set_of_mem st k v hmem]
      exact hwf.1
    · rw [keys_set_of_not_mem st k v hmem]
      simp [List.nodup_append, hwf.1, hmem]
  · intro p hp
    rcases mem_set st k v p hp with h | h
    · rw [h]
      exact hk
    · exact hwf.2 p h

lemma wf_erase (st : Store) (k : String) (hwf : Store.wf st) : Store.wf (Store.erase st k) := by
  have hsub := erase_sublist st k
  constructor
  · exact hwf.1.sublist (hsub.map Prod.fst)
  · exact fun p hp => hwf.2 p (hsub.subset hp)

lemma orElseFresh_ne_empty (session_id : Option String) (fresh : String) (hf : fresh ≠ "") :
    orElseFresh session_id fresh ≠ "" := by
  cases session_id with
  | none => exact hf
  | some s =>
    by_cases hs : s = ""
    · simp only [orElseFresh, hs, if_pos rfl]
      exact hf
    · simp only [orElseFresh, if_neg hs]
      exact hs

/-- Every operation preserves registry well-formedness, provided the
generated uuid string is non-empty; so Store.wf holds in every state
reachable from the initial empty registry. -/
lemma wf_applyOp (st : Store) (op : StoreOp) (hwf : Store.wf st) (hf : op.freshOk) :
    Store.wf (applyOp st op) := by
  cases op with
  | createOrGet sid? fresh now =>
    cases hget : Store.get? st (orElseFresh sid? fresh) with
    | some sess =>
      simpa [applyOp, create_or_get_session, hget] using hwf
    | none =>
      have hst : applyOp st (.createOrGet sid? fresh now) =
          Store.set st (orElseFresh sid? fresh)
            (SessionData.mk0 (orElseFresh sid? fresh) now) := by
        simp [applyOp, create_or_get_session, hget]
      rw [hst]
      exact wf_set _ _ _ hwf (orElseFresh_ne_empty sid? fresh hf)
  | addSamples sid samples now =>
    rcases add_samples_fst st sid samples now with h | ⟨sess, t, hget, heq, _⟩
    · simpa [applyOp, h] using hwf
    · have hne : sid ≠ "" := hwf.2 _ (get?_mem st sid sess hget)
      simp only [applyOp]
      rw [heq]
      exact wf_set _ _ _ hwf hne
  | getSummary s => exact hwf
  | getStats s => exact hwf
  | listAll => exact hwf
  | clear sid =>
    cases hget : Store.get? st sid with
    | none => simpa [applyOp, clear_session, hget] using hwf
    | some sess =>
      have hst : applyOp st (.clear sid) = Store.erase st sid := by
        simp [applyOp, clear_session, hget]
      rw [hst]
      exact wf_erase st sid hwf

/-- Claim C2: between creation and deletion, no store operation ever
decreases any of total_chars, total_duration_ms, samples_count or
last_updated of an existing session. -/
theorem c2_monotonic_aggregates (st : Store) (op : StoreOp) (sid : String) (a b : SessionData)
    (hwf : Store.wf st) (ha : Store.get? st sid = some a)
    (hb : Store.get? (applyOp st op) sid = some b) :
    a.total_chars ≤ b.total_chars ∧ a.total_duration_ms ≤ b.total_duration_ms ∧
    a.samples_count ≤ b.samples_count ∧ a.last_updated ≤ b.last_updated := by
  have same : ∀ {c : SessionData}, Store.get? st sid = some c → a = c :=
    fun hc => Option.some.inj (ha.symm.trans hc)
  cases op with
  | getSummary s =>
    simp only [applyOp] at hb
    obtain rfl := same hb
    exact ⟨le_refl _, le_refl _, le_refl _, le_refl _⟩
  | getStats s =>
    simp only [applyOp] at hb
    obtain rfl := same hb
    exact ⟨le_refl _, le_refl _, le_refl _, le_refl _⟩
  | listAll =>
    simp only [applyOp] at hb
    obtain rfl := same hb
    exact ⟨le_refl _, le_refl _, le_refl _, le_refl _⟩
  | createOrGet sid? fresh now =>
    cases hget : Store.get? st (orElseFresh sid? fresh) with
    | some sess =>
      simp only [applyOp, create_or_get_session] at hb
      rw [hget] at hb
      simp only [Option.isSome_some, if_true] at hb
      obtain rfl := same hb
      exact ⟨le_refl _, le_refl _, le_refl _, le_refl _⟩
    | none =>
      simp only [applyOp, create_or_get_session] at hb
      rw [hget] at hb
      simp only [Option.isSome_none, Bool.false_eq_true, if_false] at hb
      rw [get?_set] at hb
      by_cases hst : sid = orElseFresh sid? fresh
      · rw [hst] at ha
        rw [ha] at hget
        cases hget
      · rw [if_neg hst] at hb
        obtain rfl := same hb
        exact ⟨le_refl _, le_refl _, le_refl _, le_refl _⟩
  | addSamples sid2 samples now =>
    rcases add_samples_fst st sid2 samples now with h | ⟨sess, t, hget, heq, m1, m2, m3, m4⟩
    · simp only [applyOp] at hb
      rw [h] at hb
      obtain rfl := same hb
      exact ⟨le_refl _, le_refl _, le_refl _, le_refl _⟩
    · simp only [applyOp] at hb
      rw [heq, get?_set] at hb
      by_cases hst : sid = sid2
      · rw [if_pos hst] at hb
        obtain rfl := Option.some.inj hb
        rw [hst] at ha
        obtain rfl := Option.some.inj (hget.symm.trans ha)
        exact ⟨m1, m2, m3, m4⟩
      · rw [if_neg hst] at hb
        obtain rfl := same hb
        exact ⟨le_refl _, le_refl _, le_refl _, le_refl _⟩
  | clear sid2 =>
    cases hget : Store.get? st sid2 with
    | none =>
      simp only [applyOp, clear_session] at hb
      rw [hget] at hb
      simp only [Option.isSome_none, Bool.false_eq_true, if_false] at hb
      obtain rfl := same hb
      exact ⟨le_refl _, le_refl _, le_refl _, le_refl _⟩
    | some sess =>
      simp only [applyOp, clear_session] at hb
      rw [hget] at hb
      simp only [Option.isSome_some, if_true] at hb
      by_cases hst : sid = sid2
      · rw [hst, get?_erase_self st sid2 hwf.1] at hb
        cases hb
      · rw [get?_erase_ne st sid2 sid hst] at hb
        obtain rfl := same hb
        exact ⟨le_refl _, le_refl _, le_refl _, le_refl _⟩

/-- Claim C1 (evaluation at the failing input): a batch whose second
sample has a negative chars_typed makes add_samples raise the validation
ValueError, yet the first sample of the batch has already been applied to
the session aggregates: the claimed all-or-nothing behaviour does not
hold, because the code validates each sample inside the mutation loop. -/
theorem c1_partial_application_eval :
    (add_samples [("s1", SessionData.mk0 "s1" 0)] "s1"
      [⟨"s1", ⟨1000, some 0⟩, 5, 10⟩, ⟨"s1", ⟨1000, some 0⟩, -1, 10⟩] 2000).2 =
      .error (.valueError "chars_typed and duration_ms must be non-negative") ∧
    Store.get? (add_samples [("s1", SessionData.mk0 "s1" 0)] "s1"
      [⟨"s1", ⟨1000, some 0⟩, 5, 10⟩, ⟨"s1", ⟨1000, some 0⟩, -1, 10⟩] 2000).1 "s1" =
      some ⟨"s1", 5, 10, 1, 1000⟩ ∧
    Store.get? (add_samples [("s1", SessionData.mk0 "s1" 0)] "s1"
      [⟨"s1", ⟨1000, some 0⟩, 5, 10⟩, ⟨"s1", ⟨1000, some 0⟩, -1, 10⟩] 2000).1 "s1" ≠
      Store.get? [("s1", SessionData.mk0 "s1" 0)] "s1" := by
  decide

/-- Claim C3: appending a valid non-empty batch to an existing session
adds the batch sums of chars_typed and duration_ms to the totals, adds
the batch length to samples_count, and returns the Summary computed from
the updated aggregates. -/
theorem c3_valid_batch_sums (st : Store) (sid : String) (samples : List TypingSample)
    (now : Int) (sess : SessionData)
    (ha : Store.get? st sid = some sess) (hne : samples ≠ [])
    (hval : ∀ s ∈ samples, s.session_id = sid ∧ 0 ≤ s.chars_typed ∧ 0 ≤ s.duration_ms) :
    ∃ t : SessionData,
      Store.get? (add_samples st sid samples now).1 sid = some t ∧
      t.total_chars = sess.total_chars + (samples.map TypingSample.chars_typed).sum ∧
      t.total_duration_ms = sess.total_duration_ms + (samples.map TypingSample.duration_ms).sum ∧
      t.samples_count = sess.samples_count + samples.length ∧
      (add_samples st sid samples now).2 = .ok t.to_summary := by
  obtain ⟨h0, h1, h2, h3, h4⟩ := addLoop_valid sid samples sess hval
  have hie : samples.isEmpty = false := by
    cases samples with
    | nil => exact absurd rfl hne
    | cons a l => rfl
  have hkey : add_samples st sid samples now =
      (Store.set st sid
        { (addLoop sid sess samples).1 with
          last_updated := max (addLoop sid sess samples).1.last_updated now },
       .ok { (addLoop sid sess samples).1 with
          last_updated := max (addLoop sid sess samples).1.last_updated now }.to_summary) := by
    simp only [add_samples, hie, Bool.false_eq_true, if_false, ha, h0]
  refine ⟨{ (addLoop sid sess samples).1 with
      last_updated := max (addLoop sid sess samples).1.last_updated now }, ?_, h2, h3, h4, ?_⟩
  · rw [hkey, get?_set, if_pos rfl]
  · rw [hkey]

/-- Claim C4: the WPM derivation equals (chars divided by 5) divided by
(milliseconds divided by 60000) for positive duration, is exactly zero
for zero duration whatever the chars, and gives 10 at totals 50 chars
and 60000 ms. -/
theorem c4_wpm_formula (c d : Int) (hd : 0 < d) :
    compute_wpm c d = ((c : ℚ) / 5) / ((d : ℚ) / 60000) ∧
    compute_wpm c 0 = 0 ∧
    compute_wpm 50 60000 = 10 := by
  refine ⟨?_, ?_, ?_⟩
  · rw [compute_wpm, if_neg (not_le.mpr hd)]
  · rw [compute_wpm, if_pos le_rfl]
  · norm_num [compute_wpm]

/-- Claim C5: for an existing session, the wpm field of
get_session_stats equals the avg_wpm field of get_session_summary in the
same state; both are compute_wpm of the same stored totals. -/
theorem c5_stats_eq_summary_wpm (st : Store) (sid : String) (sess : SessionData)
    (h : Store.get? st sid = some sess) :
    ∃ (summ : SessionSummary) (stat : SpeedStat),
      get_session_summary st sid = .ok summ ∧
      get_session_stats st sid = .ok stat ∧
      stat.wpm = summ.avg_wpm := by
  refine ⟨sess.to_summary,
    { session_id := sid
      wpm := compute_wpm sess.total_chars sess.total_duration_ms
      accuracy := none
      last_updated := sess.last_updated }, ?_, ?_, rfl⟩
  · simp [get_session_summary, h]
  · simp [get_session_stats, h]

/-- Claim C6: create_or_get_session on an id that already exists in a
well-formed registry returns that id and leaves the registry, and hence
every aggregate of the session, completely unchanged; in particular a
second identical call returns the same result. -/
theorem c6_idempotent_get (st : Store) (sid : String) (sess : SessionData) (fresh : String)
    (now : Int) (hwf : Store.wf st) (ha : Store.get? st sid = some sess) :
    create_or_get_session st (some sid) fresh now = (st, sid) := by
  have hne : sid ≠ "" := hwf.2 _ (get?_mem st sid sess ha)
  simp [create_or_get_session, orElseFresh, hne, ha]

/-- Claim C7 (counterexample): the provided id may be the empty string,
which python treats as falsy, so create_or_get_session registers a fresh
uuid instead of the provided exact id: the returned id differs from the
provided one and no session is registered under the provided id. -/
theorem c7_counterexample_empty_id :
    (create_or_get_session [] (some "") "3fa85f64-5717-4562-b3fc-2c963f66afa6" 0).2 ≠ "" ∧
    Store.get? (create_or_get_session [] (some "")
      "3fa85f64-5717-4562-b3fc-2c963f66afa6" 0).1 "" = none := by
  decide

/-- Claim C7 (amended): for every provided NON-EMPTY session id absent
from the registry, create_or_get_session registers a zero-initialized
session under exactly that id and returns that id. -/
theorem c7_create_under_provided_nonempty_id (st : Store) (sid fresh : String) (now : Int)
    (hne : sid ≠ "") (habs : Store.get? st sid = none) :
    (create_or_get_session st (some sid) fresh now).2 = sid ∧
    Store.get? (create_or_get_session st (some sid) fresh now).1 sid =
      some (SessionData.mk0 sid now) := by
  have hkey : create_or_get_session st (some sid) fresh now =
      (Store.set st sid (SessionData.mk0 sid now), sid) := by
    simp [create_or_get_session, orElseFresh, hne, habs]
  rw [hkey]
  exact ⟨rfl, by rw [get?_set, if_pos rfl]⟩

/-- Claim C8: add_samples on a session id absent from the registry fails
with the KeyError (NotFound) outcome for every non-empty batch, and
returns the registry unchanged: the session is not implicitly created. -/
theorem c8_absent_session_not_created (st : Store) (sid : String) (samples : List TypingSample)
    (now : Int) (habs : Store.get? st sid = none) (hne : samples ≠ []) :
    add_samples st sid samples now = (st, .error (.keyError "session not found")) := by
  have hie : samples.isEmpty = false := by
    cases samples with
    | nil => exact absurd rfl hne
    | cons a l => rfl
  simp [add_samples, hie, habs]

/-- Claim C9 (evaluation at the failing input): one valid sample whose
timestamp is aware at utc offset +300 minutes with wall clock 72000000 ms
(true utc instant 54000000 ms), appended at wall-clock time 60000000 ms
to a session with last_updated 0. The code stores 72000000 (the wall
clock reinterpreted as utc by the replace call), while the three-way max
over the utc-normalized timestamp claimed by the spec is 60000000. -/
theorem c9_replace_not_normalize_eval :
    (Store.get? (add_samples [("s1", SessionData.mk0 "s1" 0)] "s1"
      [⟨"s1", ⟨72000000, some 300⟩, 0, 0⟩] 60000000).1 "s1").map SessionData.last_updated =
      some 72000000 ∧
    max (max (SessionData.mk0 "s1" 0).last_updated
      (PyDatetime.utcInstant ⟨72000000, some 300⟩)) 60000000 = 60000000 ∧
    (72000000 : Int) ≠ 60000000 := by
  decide

/-- Claim C10: an empty batch makes add_samples fail with the
empty-batch ValueError for every registry and session id, existing or
not, because the emptiness check precedes the registry lookup; the
registry is returned unchanged. -/
theorem c10_empty_batch_before_lookup (st : Store) (sid : String) (now : Int) :
    add_samples st sid [] now = (st, .error (.valueError "samples must be non-empty")) := rfl

/-- Witness for C2 at a concrete registry and operation. -/
theorem c2_monotonic_aggregates_witness :
    (SessionData.mk0 "s1" 0).total_chars ≤ (SessionData.mk0 "s1" 0).total_chars ∧
    (SessionData.mk0 "s1" 0).total_duration_ms ≤ (SessionData.mk0 "s1" 0).total_duration_ms ∧
    (SessionData.mk0 "s1" 0).samples_count ≤ (SessionData.mk0 "s1" 0).samples_count ∧
    (SessionData.mk0 "s1" 0).last_updated ≤ (SessionData.mk0 "s1" 0).last_updated :=
  c2_monotonic_aggregates [("s1", SessionData.mk0 "s1" 0)] (.getSummary "s1") "s1"
    (SessionData.mk0 "s1" 0) (SessionData.mk0 "s1" 0)
    ⟨by decide, by decide⟩ (by decide) (by decide)

/-- Witness for C3 at a concrete session and batch. -/
theorem c3_valid_batch_sums_witness :
    ∃ t : SessionData,
      Store.get? (add_samples [("s1", SessionData.mk0 "s1" 0)] "s1"
        [⟨"s1", ⟨0, some 0⟩, 50, 60000⟩] 5).1 "s1" = some t ∧
      t.total_chars = (SessionData.mk0 "s1" 0).total_chars +
        (([⟨"s1", ⟨0, some 0⟩, 50, 60000⟩] : List TypingSample).map TypingSample.chars_typed).sum ∧
      t.total_duration_ms = (SessionData.mk0 "s1" 0).total_duration_ms +
        (([⟨"s1", ⟨0, some 0⟩, 50, 60000⟩] : List TypingSample).map TypingSample.duration_ms).sum ∧
      t.samples_count = (SessionData.mk0 "s1" 0).samples_count +
        ([⟨"s1", ⟨0, some 0⟩, 50, 60000⟩] : List TypingSample).length ∧
      (add_samples [("s1", SessionData.mk0 "s1" 0)] "s1"
        [⟨"s1", ⟨0, some 0⟩, 50, 60000⟩] 5).2 = .ok t.to_summary :=
  c3_valid_batch_sums [("s1", SessionData.mk0 "s1" 0)] "s1"
    [⟨"s1", ⟨0, some 0⟩, 50, 60000⟩] 5 (SessionData.mk0 "s1" 0)
    (by decide) (by decide) (by decide)

/-- Witness for C4 at concrete totals. -/
theorem c4_wpm_formula_witness :
    compute_wpm 7 60000 = (((7 : Int) : ℚ) / 5) / (((60000 : Int) : ℚ) / 60000) ∧
    compute_wpm 7 0 = 0 ∧
    compute_wpm 50 60000 = 10 :=
  c4_wpm_formula 7 60000 (by norm_num)

/-- Witness for C5 at a concrete registry. -/
theorem c5_stats_eq_summary_wpm_witness :
    ∃ (summ : SessionSummary) (stat : SpeedStat),
      get_session_summary [("s1", SessionData.mk0 "s1" 7)] "s1" = .ok summ ∧
      get_session_stats [("s1", SessionData.mk0 "s1" 7)] "s1" = .ok stat ∧
      stat.wpm = summ.avg_wpm :=
  c5_stats_eq_summary_wpm [("s1", SessionData.mk0 "s1" 7)] "s1" (SessionData.mk0 "s1" 7)
    (by decide)

/-- Witness for C6 at a concrete registry. -/
theorem c6_idempotent_get_witness :
    create_or_get_session [("s1", SessionData.mk0 "s1" 3)] (some "s1") "f0" 9 =
      ([("s1", SessionData.mk0 "s1" 3)], "s1") :=
  c6_idempotent_get [("s1", SessionData.mk0 "s1" 3)] "s1" (SessionData.mk0 "s1" 3) "f0" 9
    ⟨by decide, by decide⟩ (by decide)

/-- Witness for the amended C7 at a concrete registry. -/
theorem c7_create_under_provided_nonempty_id_witness :
    (create_or_get_session [] (some "s2") "f0" 4).2 = "s2" ∧
    Store.get? (create_or_get_session [] (some "s2") "f0" 4).1 "s2" =
      some (SessionData.mk0 "s2" 4) :=
  c7_create_under_provided_nonempty_id [] "s2" "f0" 4 (by decide) (by decide)

/-- Witness for C8 at a concrete registry and batch. -/
theorem c8_absent_session_not_created_witness :
    add_samples [] "s1" [⟨"s1", ⟨0, some 0⟩, 1, 1⟩] 0 =
      ([], .error (.keyError "session not found")) :=
  c8_absent_session_not_created [] "s1" [⟨"s1", ⟨0, some 0⟩, 1, 1⟩] 0 (by decide) (by decide)

end TypingStore
